import Mathlib

/-!
Verification of the `Keystore` model (`packages/neuron-wallet/src/models/keys/keystore.ts`)
of the neuron wallet: Web3 Secret Storage (version 3) keystores with
scrypt key derivation, aes-128-ctr encryption and a Keccak-256 MAC.

The TypeScript class composes three external cryptographic primitives
(`crypto.scryptSync`, `crypto.createCipheriv`/`createDecipheriv` with the
fixed stream cipher `aes-128-ctr`, and `Keccak(256)` from the `sha3`
package).  Those primitives are not part of the repository; they are
modelled abstractly by a `CryptoPrims` structure carrying the functions
together with the length/byte-range contracts Node guarantees for them.
The CTR stream cipher is modelled by its defining semantics: encryption
and decryption both XOR the data with the key/iv-determined keystream,
so `update`/`final` on a cipher and on a decipher are the same byte map.

Bytes are `Nat`s below 256; `Buffer`s are `List Nat`; hex strings are
Lean `String`s with explicit encode/decode functions mirroring
`buf.toString('hex')` and `Buffer.from(s, 'hex')` (the latter is lenient:
it stops at the first non-hex pair, as Node does).
-/

deriving instance DecidableEq for Except

namespace Neuron

/-! ## Hex encoding (Buffer.toString('hex') / Buffer.from(s, 'hex')) -/

/-- Lower-case hex digit for a value below 16 (`0`–`9`, `a`–`f`). -/
def hexDigitChar (n : Nat) : Char :=
  if n < 10 then Char.ofNat (48 + n) else Char.ofNat (87 + n)

/-- Two lower-case hex digits of one byte. -/
def byteToHex (b : Nat) : List Char :=
  [hexDigitChar ((b / 16) % 16), hexDigitChar (b % 16)]

/-- Hex characters of a byte list, most significant digit first. -/
def hexEncodeList : List Nat → List Char
  | [] => []
  | b :: bs => byteToHex b ++ hexEncodeList bs

/-- `buf.toString('hex')`: lower-case hex string of a byte list. -/
def hexEncode (bs : List Nat) : String :=
  ⟨hexEncodeList bs⟩

/-- Value of one hex digit character, upper or lower case. -/
def hexDigitVal (c : Char) : Option Nat :=
  if 48 ≤ c.toNat ∧ c.toNat ≤ 57 then some (c.toNat - 48)
  else if 97 ≤ c.toNat ∧ c.toNat ≤ 102 then some (c.toNat - 87)
  else if 65 ≤ c.toNat ∧ c.toNat ≤ 70 then some (c.toNat - 55)
  else none

/-- Decode hex characters pairwise; like Node's `Buffer.from(s, 'hex')`,
decoding stops (without error) at the first invalid or incomplete pair. -/
def hexDecodeList : List Char → List Nat
  | c1 :: c2 :: rest =>
    match hexDigitVal c1, hexDigitVal c2 with
    | some h, some l => (16 * h + l) :: hexDecodeList rest
    | _, _ => []
  | _ => []

/-- `Buffer.from(s, 'hex')` as a byte list. -/
def hexDecode (s : String) : List Nat :=
  hexDecodeList s.data

theorem hexDigitVal_hexDigitChar {n : Nat} (h : n < 16) :
    hexDigitVal (hexDigitChar n) = some n := by
  interval_cases n <;> rfl

theorem hexDecodeList_hexEncodeList {bs : List Nat} (h : ∀ b ∈ bs, b < 256) :
    hexDecodeList (hexEncodeList bs) = bs := by
  induction bs with
  | nil => rfl
  | cons b bs ih =>
    have hb : b < 256 := h b (List.mem_cons_self b bs)
    have hhi : (b / 16) % 16 < 16 := Nat.mod_lt _ (by norm_num)
    have hlo : b % 16 < 16 := Nat.mod_lt _ (by norm_num)
    have hdiv : b / 16 < 16 := Nat.div_lt_of_lt_mul (by omega)
    simp only [hexEncodeList, byteToHex, List.cons_append, List.nil_append,
      List.append_nil, List.nil_eq, hexDecodeList,
      hexDigitVal_hexDigitChar hhi, hexDigitVal_hexDigitChar hlo]
    rw [show List.append [] (hexEncodeList bs) = hexEncodeList bs from rfl,
      ih (fun x hx => h x (List.mem_cons_of_mem _ hx))]
    congr 1
    rw [Nat.mod_eq_of_lt hdiv]
    omega

/-- Hex decoding inverts hex encoding on genuine byte lists. -/
theorem hexDecode_hexEncode {bs : List Nat} (h : ∀ b ∈ bs, b < 256) :
    hexDecode (hexEncode bs) = bs :=
  hexDecodeList_hexEncodeList h

/-! ## The abstract cryptographic primitives

`CryptoPrims` packages the external primitives the keystore composes,
with the contracts the Node implementations guarantee: `scryptSync`
returns exactly `dklen` bytes, and a CTR keystream of requested length
`n` is `n` bytes. -/

structure CryptoPrims where
  /-- `crypto.scryptSync(password, salt, dklen, {N, r, p})`. -/
  scrypt : String → List Nat → Nat → Nat → Nat → Nat → List Nat
  /-- The aes-128-ctr keystream determined by a key and an iv, at a
  requested length: CTR encryption and decryption both XOR with it. -/
  keystream : List Nat → List Nat → Nat → List Nat
  /-- `new Keccak(256).update(bytes).digest('hex')`: the hex digest string. -/
  keccak : List Nat → String
  scrypt_len : ∀ pw salt dklen n r p, (scrypt pw salt dklen n r p).length = dklen
  keystream_len : ∀ key iv n, (keystream key iv n).length = n
  keystream_lt : ∀ key iv n, ∀ b ∈ keystream key iv n, b < 256

/-- Errors thrown by the Node crypto layer itself (not keystore errors). -/
inductive JsError where
  /-- `createCipheriv`/`createDecipheriv` rejected the algorithm name,
  key length or iv length. -/
  | invalidCipherArgs : JsError
  /-- A property access or method call on `undefined`. -/
  | typeErrorUndefined : JsError
deriving DecidableEq, Repr

/-- The exceptions of `exceptions/` raised by the keystore, plus
propagated Node errors. -/
inductive KeystoreError where
  | incorrectPassword : KeystoreError
  | invalidKeystore : KeystoreError
  | unsupportedCipher : KeystoreError
  | jsError : JsError → KeystoreError
deriving DecidableEq, Repr

/-- `const CIPHER = 'aes-128-ctr'`. -/
def CIPHER : String := "aes-128-ctr"

/-- A live CTR cipher object: the key and iv it was created with. -/
structure CtrCipher where
  key : List Nat
  iv : List Nat
deriving DecidableEq, Repr

/-- `crypto.createCipheriv(name, key, iv)`.  Node either returns a cipher
object or throws (unknown algorithm, or a key/iv length not matching the
algorithm: aes-128-ctr needs a 16-byte key and a 16-byte iv); it never
returns a falsy value, so the `Option` is always `some` on success. -/
def createCipheriv (name : String) (key iv : List Nat) :
    Except JsError (Option CtrCipher) :=
  if name = CIPHER then
    if key.length = 16 ∧ iv.length = 16 then .ok (some ⟨key, iv⟩)
    else .error .invalidCipherArgs
  else .error .invalidCipherArgs

/-- `crypto.createDecipheriv`: same validation and object as
`createCipheriv`; for a CTR stream cipher the two transforms coincide. -/
def createDecipheriv (name : String) (key iv : List Nat) :
    Except JsError (Option CtrCipher) :=
  createCipheriv name key iv

/-- `cipher.update(data)` + `cipher.final()` for a CTR cipher: XOR the
data with the keystream (same for encryption and decryption). -/
def ctrRun (prims : CryptoPrims) (c : CtrCipher) (data : List Nat) : List Nat :=
  List.zipWith Nat.xor data (prims.keystream c.key c.iv data.length)

/-! ## The Keystore data model (interfaces of keystore.ts) -/

/-- `interface CipherParams { iv: string }`. -/
structure CipherParams where
  iv : String
deriving DecidableEq, Repr

/-- `interface KdfParams { dklen, n, r, p: number; salt: string }`. -/
structure KdfParams where
  dklen : Nat
  n : Nat
  r : Nat
  p : Nat
  salt : String
deriving DecidableEq, Repr

/-- `interface Crypto`: the cryptographic envelope of a keystore. -/
structure CryptoEnv where
  cipher : String
  cipherparams : CipherParams
  ciphertext : String
  kdf : String
  kdfparams : KdfParams
  mac : String
deriving DecidableEq, Repr

/-- `class Keystore { crypto; id; version = 3 }` as constructed by
`create` (the typed shape declared in the source). -/
structure Keystore where
  crypto : CryptoEnv
  id : String
  version : Nat := 3
deriving DecidableEq, Repr

/-- Modelled from the spec: the external secret type `ExtendedPrivateKey`
(its module `models/keys/key.ts` is not part of the provided sources) is
opaque to the keystore beyond serializing to a hex byte string; it is
modelled as the byte sequence it serializes. -/
structure ExtendedPrivateKey where
  bytes : List Nat
deriving DecidableEq, Repr

/-- Modelled from the spec: `serialize() -> hex string`, the hex encoding
of the secret's bytes. -/
def ExtendedPrivateKey.serialize (k : ExtendedPrivateKey) : String :=
  hexEncode k.bytes

/-- `Keystore.mac(derivedKey, ciphertext)`: the Keccak-256 hex digest of
`derivedKey.slice(16, 32) ‖ ciphertext`. -/
def Keystore.mac (prims : CryptoPrims) (derivedKey ciphertext : List Nat) : String :=
  prims.keccak ((derivedKey.drop 16).take 16 ++ ciphertext)

/-- `Keystore.create(extendedPrivateKey, password, {salt, iv})`.  The
`salt`/`iv` defaults (`crypto.randomBytes`) and the random `uuid()` id
are injected as explicit arguments, so the randomness source is a
parameter and fixed-randomness runs are expressible.  Node errors thrown
by `createCipheriv` propagate; a falsy cipher object would raise
`UnsupportedCipher`. -/
def Keystore.create (prims : CryptoPrims) (extendedPrivateKey : ExtendedPrivateKey)
    (password : String) (salt iv : List Nat) (id : String) :
    Except KeystoreError Keystore :=
  let kdfparams : KdfParams :=
    { dklen := 32, salt := hexEncode salt, n := 8192, r := 8, p := 1 }
  let derivedKey := prims.scrypt password salt kdfparams.dklen
    kdfparams.n kdfparams.r kdfparams.p
  match createCipheriv CIPHER (derivedKey.take 16) iv with
  | .error e => .error (.jsError e)
  | .ok none => .error .unsupportedCipher
  | .ok (some cipher) =>
    let ciphertext := ctrRun prims cipher (hexDecode extendedPrivateKey.serialize)
    .ok
      { crypto :=
          { ciphertext := hexEncode ciphertext
            cipherparams := { iv := hexEncode iv }
            cipher := CIPHER
            kdf := "scrypt"
            kdfparams := kdfparams
            mac := Keystore.mac prims derivedKey ciphertext }
        id := id
        version := 3 }

/-- `derivedKey(password)`: scrypt over the stored kdf parameters. -/
def Keystore.derivedKey (prims : CryptoPrims) (ks : Keystore) (password : String) :
    List Nat :=
  prims.scrypt password (hexDecode ks.crypto.kdfparams.salt)
    ks.crypto.kdfparams.dklen ks.crypto.kdfparams.n
    ks.crypto.kdfparams.r ks.crypto.kdfparams.p

/-- `decrypt(password)`: derive the key, recompute and compare the MAC
(raising `IncorrectPassword` on mismatch, before any decryption), then
decipher the stored ciphertext and return its hex string. -/
def Keystore.decrypt (prims : CryptoPrims) (ks : Keystore) (password : String) :
    Except KeystoreError String :=
  let derivedKey := ks.derivedKey prims password
  let ciphertext := hexDecode ks.crypto.ciphertext
  if Keystore.mac prims derivedKey ciphertext ≠ ks.crypto.mac then
    .error .incorrectPassword
  else
    match createDecipheriv ks.crypto.cipher (derivedKey.take 16)
        (hexDecode ks.crypto.cipherparams.iv) with
    | .error e => .error (.jsError e)
    | .ok none => .error (.jsError .typeErrorUndefined)
    | .ok (some decipher) => .ok (hexEncode (ctrRun prims decipher ciphertext))

/-- `checkPassword(password)`: recompute the MAC and compare with the
stored one; a boolean, never an exception, never the plaintext. -/
def Keystore.checkPassword (prims : CryptoPrims) (ks : Keystore) (password : String) :
    Bool :=
  Keystore.mac prims (ks.derivedKey prims password) (hexDecode ks.crypto.ciphertext)
    == ks.crypto.mac

/-! ## JSON values and `JSON.parse`, for `Keystore.fromJson`

`fromJson` runs `JSON.parse` and reads two properties off the result
inside a `try`/`catch` that converts every throw to `InvalidKeystore`.
The parser below models `JSON.parse` closely enough for the keystore
wire format: objects, arrays, strings with the single-character escapes,
booleans, `null`, and integer numbers (keystore JSON carries only
integers; fractions/exponents and `\u` escapes are left unmodelled, so
the model parser rejects some strings `JSON.parse` accepts — all
general theorems below only use parser failure, never rely on it). -/

inductive Json where
  | null : Json
  | bool (b : Bool) : Json
  | num (n : Int) : Json
  | str (s : String) : Json
  | arr (elems : List Json) : Json
  | obj (fields : List (String × Json)) : Json

/-- JSON whitespace. -/
def isWs (c : Char) : Bool :=
  c = ' ' || c = '\n' || c = '\t' || c = '\r'

/-- Drop leading JSON whitespace. -/
def skipWs : List Char → List Char
  | [] => []
  | c :: rest => if isWs c then skipWs rest else c :: rest

/-- ASCII decimal digit. -/
def isDigit (c : Char) : Bool :=
  48 ≤ c.toNat && c.toNat ≤ 57

/-- Consume a run of digits, accumulating their value. -/
def digitsToNat (acc : Nat) : List Char → Nat × List Char
  | [] => (acc, [])
  | c :: rest =>
    if isDigit c then digitsToNat (acc * 10 + (c.toNat - 48)) rest
    else (acc, c :: rest)

/-- Parse a JSON integer (optional minus sign, one or more digits). -/
def parseNumber : List Char → Option (Json × List Char)
  | '-' :: c :: rest =>
    if isDigit c then
      let r := digitsToNat (c.toNat - 48) rest
      some (.num (-(r.1 : Int)), r.2)
    else none
  | c :: rest =>
    if isDigit c then
      let r := digitsToNat (c.toNat - 48) rest
      some (.num (r.1 : Int), r.2)
    else none
  | [] => none

/-- The single-character JSON string escapes. -/
def escChar (e : Char) : Option Char :=
  if e = '"' then some '"'
  else if e = '\\' then some '\\'
  else if e = '/' then some '/'
  else if e = 'n' then some '\n'
  else if e = 't' then some '\t'
  else if e = 'r' then some '\r'
  else if e = 'b' then some (Char.ofNat 8)
  else if e = 'f' then some (Char.ofNat 12)
  else none

/-- Parse the body of a JSON string after the opening quote. -/
def parseStringChars : Nat → List Char → List Char → Option (String × List Char)
  | 0, _, _ => none
  | _, [], _ => none
  | fuel + 1, c :: rest, acc =>
    if c = '"' then some (⟨acc.reverse⟩, rest)
    else if c = '\\' then
      match rest with
      | [] => none
      | e :: rest2 =>
        match escChar e with
        | some ec => parseStringChars fuel rest2 (ec :: acc)
        | none => none
    else parseStringChars fuel rest (c :: acc)

/-- Intermediate parse results: a value, object members, array items. -/
inductive PRes where
  | val (j : Json) : PRes
  | fields (fs : List (String × Json)) : PRes
  | items (xs : List Json) : PRes

/-- Fuel-indexed recursive-descent parser.  Mode 0 parses one value;
mode 1 parses object members right after the opening brace (empty
allowed); mode 3 parses one-or-more object members; modes 2 and 4 do the
same for array items. -/
def parseAny : Nat → Nat → List Char → Option (PRes × List Char)
  | 0, _, _ => none
  | fuel + 1, 0, cs =>
    match skipWs cs with
    | [] => none
    | c :: rest =>
      if c = '"' then
        match parseStringChars (rest.length + 1) rest [] with
        | some (s, rest2) => some (.val (.str s), rest2)
        | none => none
      else if c = '\x7b' then
        match parseAny fuel 1 rest with
        | some (.fields fs, rest2) => some (.val (.obj fs), rest2)
        | _ => none
      else if c = '[' then
        match parseAny fuel 2 rest with
        | some (.items xs, rest2) => some (.val (.arr xs), rest2)
        | _ => none
      else if c = 'n' then
        match rest with
        | 'u' :: 'l' :: 'l' :: rest2 => some (.val .null, rest2)
        | _ => none
      else if c = 't' then
        match rest with
        | 'r' :: 'u' :: 'e' :: rest2 => some (.val (.bool true), rest2)
        | _ => none
      else if c = 'f' then
        match rest with
        | 'a' :: 'l' :: 's' :: 'e' :: rest2 => some (.val (.bool false), rest2)
        | _ => none
      else
        match parseNumber (c :: rest) with
        | some (j, rest2) => some (.val j, rest2)
        | none => none
  | fuel + 1, 1, cs =>
    match skipWs cs with
    | '\x7d' :: rest => some (.fields [], rest)
    | cs2 => parseAny fuel 3 cs2
  | fuel + 1, 3, cs =>
    match skipWs cs with
    | '"' :: rest =>
      match parseStringChars (rest.length + 1) rest [] with
      | some (key, rest2) =>
        match skipWs rest2 with
        | ':' :: rest3 =>
          match parseAny fuel 0 rest3 with
          | some (.val v, rest4) =>
            match skipWs rest4 with
            | '\x7d' :: rest5 => some (.fields [(key, v)], rest5)
            | ',' :: rest5 =>
              match parseAny fuel 3 rest5 with
              | some (.fields fs, rest6) => some (.fields ((key, v) :: fs), rest6)
              | _ => none
            | _ => none
          | _ => none
        | _ => none
      | none => none
    | _ => none
  | fuel + 1, 2, cs =>
    match skipWs cs with
    | ']' :: rest => some (.items [], rest)
    | cs2 => parseAny fuel 4 cs2
  | fuel + 1, 4, cs =>
    match parseAny fuel 0 cs with
    | some (.val v, rest) =>
      match skipWs rest with
      | ']' :: rest2 => some (.items [v], rest2)
      | ',' :: rest2 =>
        match parseAny fuel 4 rest2 with
        | some (.items xs, rest3) => some (.items (v :: xs), rest3)
        | _ => none
      | _ => none
    | _ => none
  | _ + 1, _, _ => none

/-- `JSON.parse(s)`: parse one value, requiring only whitespace after it;
`none` models a thrown `SyntaxError`. -/
def jsonParse (s : String) : Option Json :=
  match parseAny (s.length * 3 + 3) 0 s.data with
  | some (.val v, rest) => if (skipWs rest).isEmpty then some v else none
  | _ => none

/-- Property lookup where the last duplicate key wins, as in a JS object
built by `JSON.parse`. -/
def lookupLast (fields : List (String × Json)) (key : String) : Option Json :=
  match fields with
  | [] => none
  | (k, v) :: rest =>
    match lookupLast rest key with
    | some r => some r
    | none => if k = key then some v else none

/-- JS property access `v[key]` on a parsed JSON value: throws (outer
`none`) on `null`, yields `undefined` (inner `none`) on primitives and
arrays or when an object lacks the key. -/
def jsGetField (v : Json) (key : String) : Option (Option Json) :=
  match v with
  | .null => none
  | .obj fields => some (lookupLast fields key)
  | _ => some none

/-- The runtime shape `new Keystore(object.crypto, object.id)` really
produces for parsed input: the constructor stores the two properties
unvalidated (possibly `undefined`, of any JSON shape) and sets
`version = 3`. -/
structure ParsedKeystore where
  crypto : Option Json
  id : Option Json
  version : Nat := 3

/-- `Keystore.fromJson(json)`: `JSON.parse` plus the two property reads,
with every thrown error converted to `InvalidKeystore` by the `catch`. -/
def Keystore.fromJson (json : String) : Except KeystoreError ParsedKeystore :=
  match jsonParse json with
  | none => .error .invalidKeystore
  | some v =>
    match jsGetField v "crypto" with
    | none => .error .invalidKeystore
    | some c =>
      match jsGetField v "id" with
      | none => .error .invalidKeystore
      | some i => .ok { crypto := c, id := i, version := 3 }

/-! ## A concrete primitives instance

`toyPrims` instantiates `CryptoPrims` with small executable stand-ins
satisfying the length/byte-range contracts, so that the theorems below
can be exercised on closed inputs. -/

/-- A toy scrypt: `dklen` bytes seeded by password and salt. -/
def toyScrypt (pw : String) (salt : List Nat) (dklen _n _r _p : Nat) : List Nat :=
  ((List.range dklen).map fun i => ((pw.data.map Char.toNat).sum + salt.sum + i) % 256)

/-- A toy CTR keystream of the requested length. -/
def toyKeystream (key iv : List Nat) (n : Nat) : List Nat :=
  ((List.range n).map fun i => (key.sum + iv.sum + i) % 256)

/-- A concrete `CryptoPrims` instance (hex digest of the input as the
stand-in Keccak). -/
def toyPrims : CryptoPrims where
  scrypt := toyScrypt
  keystream := toyKeystream
  keccak := hexEncode
  scrypt_len := by
    intro pw salt dklen n r p
    simp [toyScrypt]
  keystream_len := by
    intro key iv n
    simp [toyKeystream]
  keystream_lt := by
    intro key iv n b hb
    simp only [toyKeystream, List.mem_map, List.mem_range] at hb
    obtain ⟨i, _, rfl⟩ := hb
    exact Nat.mod_lt _ (by norm_num)

/-- A second instance agreeing with `toyPrims` on scrypt and Keccak but
with a different keystream. -/
def toyPrims2 : CryptoPrims where
  scrypt := toyScrypt
  keystream := fun _key _iv n => List.replicate n 1
  keccak := hexEncode
  scrypt_len := by
    intro pw salt dklen n r p
    simp [toyScrypt]
  keystream_len := by
    intro key iv n
    simp
  keystream_lt := by
    intro key iv n b hb
    simp only [List.mem_replicate] at hb
    omega

/-- A throwaway keystore used as the default of `exceptOk`. -/
def dummyKeystore : Keystore :=
  { crypto :=
      { cipher := ""
        cipherparams := { iv := "" }
        ciphertext := ""
        kdf := ""
        kdfparams := { dklen := 0, n := 0, r := 0, p := 0, salt := "" }
        mac := "" }
    id := ""
    version := 3 }

/-- Extract the keystore from a successful `Except`. -/
def exceptOk (e : Except KeystoreError Keystore) (dflt : Keystore) : Keystore :=
  match e with
  | .ok k => k
  | .error _ => dflt

/-! ## Helper lemmas -/

theorem zipWith_xor_zipWith_xor (pt ks : List Nat) (h : ks.length = pt.length) :
    List.zipWith Nat.xor (List.zipWith Nat.xor pt ks) ks = pt := by
  induction pt generalizing ks with
  | nil => simp
  | cons a as ih =>
    cases ks with
    | nil => simp at h
    | cons b bs =>
      simp only [List.zipWith_cons_cons, List.cons.injEq]
      exact ⟨Nat.xor_cancel_right b a, ih bs (by simpa using h)⟩

theorem mem_zipWith_xor_lt (as bs : List Nat) (ha : ∀ a ∈ as, a < 256)
    (hb : ∀ b ∈ bs, b < 256) : ∀ c ∈ List.zipWith Nat.xor as bs, c < 256 := by
  induction as generalizing bs with
  | nil => simp
  | cons a as ih =>
    cases bs with
    | nil => simp
    | cons b bs =>
      intro c hc
      simp only [List.zipWith_cons_cons, List.mem_cons] at hc
      rcases hc with rfl | hc
      · have h1 : a < 2 ^ 8 := ha a (by simp)
        have h2 : b < 2 ^ 8 := hb b (by simp)
        simpa using Nat.xor_lt_two_pow h1 h2
      · exact ih bs (fun x hx => ha x (by simp [hx])) (fun x hx => hb x (by simp [hx])) c hc

/-- Running the CTR transform twice with the same cipher object is the
identity: decryption inverts encryption. -/
theorem ctrRun_ctrRun (prims : CryptoPrims) (c : CtrCipher) (pt : List Nat) :
    ctrRun prims c (ctrRun prims c pt) = pt := by
  simp only [ctrRun]
  rw [show (List.zipWith Nat.xor pt (prims.keystream c.key c.iv pt.length)).length
      = pt.length from by simp [prims.keystream_len]]
  exact zipWith_xor_zipWith_xor pt _ (prims.keystream_len _ _ _)

/-- CTR output bytes are bytes when the input bytes are. -/
theorem ctrRun_lt (prims : CryptoPrims) (c : CtrCipher) (data : List Nat)
    (h : ∀ b ∈ data, b < 256) : ∀ b ∈ ctrRun prims c data, b < 256 :=
  mem_zipWith_xor_lt _ _ h (prims.keystream_lt _ _ _)

/-- What `create` returns when the iv has the required 16 bytes: the
fully explicit keystore record. -/
theorem Keystore.create_eq_ok (prims : CryptoPrims) (x : ExtendedPrivateKey)
    (pw : String) (salt iv : List Nat) (id : String) (hiv : iv.length = 16) :
    Keystore.create prims x pw salt iv id =
      .ok
        { crypto :=
            { cipher := CIPHER
              cipherparams := { iv := hexEncode iv }
              ciphertext := hexEncode (ctrRun prims
                ⟨(prims.scrypt pw salt 32 8192 8 1).take 16, iv⟩
                (hexDecode x.serialize))
              kdf := "scrypt"
              kdfparams := { dklen := 32, n := 8192, r := 8, p := 1, salt := hexEncode salt }
              mac := Keystore.mac prims (prims.scrypt pw salt 32 8192 8 1)
                (ctrRun prims ⟨(prims.scrypt pw salt 32 8192 8 1).take 16, iv⟩
                  (hexDecode x.serialize)) }
          id := id
          version := 3 } := by
  have hk : ((prims.scrypt pw salt 32 8192 8 1).take 16).length = 16 := by
    simp [List.length_take, prims.scrypt_len]
  unfold Keystore.create createCipheriv
  simp [hk, hiv]

/-- What `create` returns when the iv does not have 16 bytes: the Node
error thrown by `createCipheriv` propagates. -/
theorem Keystore.create_eq_error (prims : CryptoPrims) (x : ExtendedPrivateKey)
    (pw : String) (salt iv : List Nat) (id : String) (hiv : iv.length ≠ 16) :
    Keystore.create prims x pw salt iv id = .error (.jsError .invalidCipherArgs) := by
  unfold Keystore.create createCipheriv
  simp [hiv]

/-! ## The claims -/

/-- C7: the MAC is a pure function of `derivedKey[16:32]` and the
ciphertext: two 32-byte derived keys agreeing on bytes 16 through 31
give the same MAC over any fixed ciphertext, whatever their cipher-key
regions `derivedKey[0:16]` are. -/
theorem mac_ignores_cipher_key_region (prims : CryptoPrims) (dk1 dk2 ct : List Nat)
    (_hlen1 : dk1.length = 32) (_hlen2 : dk2.length = 32)
    (h : (dk1.drop 16).take 16 = (dk2.drop 16).take 16) :
    Keystore.mac prims dk1 ct = Keystore.mac prims dk2 ct := by
  unfold Keystore.mac
  rw [h]

/-- Witness for C7: two 32-byte keys with different first 16 bytes and
the same bytes 16–31 give the same MAC on ciphertext `[3]`. -/
theorem mac_ignores_cipher_key_region_witness :
    Keystore.mac toyPrims (List.replicate 16 1 ++ List.replicate 16 9) [3]
      = Keystore.mac toyPrims (List.replicate 16 2 ++ List.replicate 16 9) [3] :=
  mac_ignores_cipher_key_region toyPrims _ _ [3] (by decide) (by decide) (by decide)

/-- C8: every keystore returned by `create` carries the fixed format
constants — `version = 3`, cipher `aes-128-ctr`, kdf `scrypt`, kdfparams
`{dklen 32, n 8192, r 8, p 1}` with the hex salt, and the hex iv —
independent of the secret and password. -/
theorem create_format_constants (prims : CryptoPrims) (S : ExtendedPrivateKey)
    (P : String) (salt iv : List Nat) (id : String) (ks : Keystore)
    (hcreate : Keystore.create prims S P salt iv id = .ok ks) :
    ks.version = 3 ∧ ks.crypto.cipher = "aes-128-ctr" ∧ ks.crypto.kdf = "scrypt" ∧
      ks.crypto.kdfparams
        = { dklen := 32, n := 8192, r := 8, p := 1, salt := hexEncode salt } ∧
      ks.crypto.cipherparams.iv = hexEncode iv := by
  by_cases hiv : iv.length = 16
  · rw [Keystore.create_eq_ok prims S P salt iv id hiv] at hcreate
    cases hcreate
    exact ⟨rfl, rfl, rfl, rfl, rfl⟩
  · rw [Keystore.create_eq_error prims S P salt iv id hiv] at hcreate
    cases hcreate

/-- A concrete keystore created with the toy primitives, for C8. -/
def ksC8 : Keystore :=
  exceptOk (Keystore.create toyPrims ⟨[2]⟩ "p8" [5] (List.replicate 16 0) "id-8")
    dummyKeystore

/-- Witness for C8: the format constants of a concretely created
keystore. -/
theorem create_format_constants_witness :
    ksC8.version = 3 ∧ ksC8.crypto.cipher = "aes-128-ctr" ∧
      ksC8.crypto.kdf = "scrypt" ∧
      ksC8.crypto.kdfparams
        = { dklen := 32, n := 8192, r := 8, p := 1, salt := hexEncode [5] } ∧
      ksC8.crypto.cipherparams.iv = hexEncode (List.replicate 16 0) :=
  create_format_constants toyPrims ⟨[2]⟩ "p8" [5] (List.replicate 16 0) "id-8" ksC8 rfl

/-- C9: whatever the input JSON contains — in particular whatever its
`version` field is — a keystore obtained from `fromJson` has
`version = 3`; a mismatched version is neither preserved nor rejected. -/
theorem fromJson_version_three (s : String) (k : ParsedKeystore)
    (h : Keystore.fromJson s = .ok k) : k.version = 3 := by
  unfold Keystore.fromJson at h
  rcases hp : jsonParse s with _ | v
  · simp [hp] at h
  · simp only [hp] at h
    rcases hc : jsGetField v "crypto" with _ | c
    · simp [hc] at h
    · simp only [hc] at h
      rcases hi : jsGetField v "id" with _ | i
      · simp [hi] at h
      · simp only [hi, Except.ok.injEq] at h
        subst h
        rfl

/-- Witness for C9: parsing an envelope whose `version` field is 7 still
yields `version = 3`. -/
theorem fromJson_version_three_witness :
    Keystore.fromJson "\x7b\"version\": 7\x7d"
        = .ok { crypto := none, id := none, version := 3 }
      ∧ (ParsedKeystore.mk none none 3).version = 3 :=
  ⟨rfl, fromJson_version_three "\x7b\"version\": 7\x7d" ⟨none, none, 3⟩ rfl⟩

/-- C10: `create` never raises `UnsupportedCipher`: `createCipheriv`
with the fixed cipher name either returns a cipher object or throws its
own error, never a falsy value, so the guard is unreachable. -/
theorem create_never_unsupportedCipher (prims : CryptoPrims)
    (S : ExtendedPrivateKey) (P : String) (salt iv : List Nat) (id : String) :
    Keystore.create prims S P salt iv id ≠ .error .unsupportedCipher := by
  by_cases hiv : iv.length = 16
  · rw [Keystore.create_eq_ok prims S P salt iv id hiv]
    intro h
    cases h
  · rw [Keystore.create_eq_error prims S P salt iv id hiv]
    intro h
    cases h

/-- Witness for C10: the no-`UnsupportedCipher` fact at a concrete
invocation. -/
theorem create_never_unsupportedCipher_witness :
    Keystore.create toyPrims ⟨[1]⟩ "p10" [] (List.replicate 16 0) "id-10"
      ≠ .error .unsupportedCipher :=
  create_never_unsupportedCipher toyPrims ⟨[1]⟩ "p10" [] (List.replicate 16 0) "id-10"

/-- C6: `create` is deterministic in everything except the id: with the
same secret, password, salt and iv, two calls deliver identical
`ciphertext` and `mac`. -/
theorem create_deterministic_except_id (prims : CryptoPrims)
    (S : ExtendedPrivateKey) (P : String) (salt iv : List Nat)
    (id1 id2 : String) (ks1 ks2 : Keystore)
    (h1 : Keystore.create prims S P salt iv id1 = .ok ks1)
    (h2 : Keystore.create prims S P salt iv id2 = .ok ks2) :
    ks1.crypto.ciphertext = ks2.crypto.ciphertext ∧ ks1.crypto.mac = ks2.crypto.mac := by
  by_cases hiv : iv.length = 16
  · rw [Keystore.create_eq_ok prims S P salt iv id1 hiv] at h1
    rw [Keystore.create_eq_ok prims S P salt iv id2 hiv] at h2
    cases h1
    cases h2
    exact ⟨rfl, rfl⟩
  · rw [Keystore.create_eq_error prims S P salt iv id1 hiv] at h1
    cases h1

/-- Concrete keystores created with two different ids, for C6. -/
def ksC6a : Keystore :=
  exceptOk (Keystore.create toyPrims ⟨[4, 5]⟩ "p6" [9] (List.replicate 16 0) "id-a")
    dummyKeystore

/-- Second copy of the C6 keystore, created under another id. -/
def ksC6b : Keystore :=
  exceptOk (Keystore.create toyPrims ⟨[4, 5]⟩ "p6" [9] (List.replicate 16 0) "id-b")
    dummyKeystore

/-- Witness for C6: the two concretely created keystores share
ciphertext and mac. -/
theorem create_deterministic_except_id_witness :
    ksC6a.crypto.ciphertext = ksC6b.crypto.ciphertext
      ∧ ksC6a.crypto.mac = ksC6b.crypto.mac :=
  create_deterministic_except_id toyPrims ⟨[4, 5]⟩ "p6" [9] (List.replicate 16 0)
    "id-a" "id-b" ksC6a ksC6b rfl rfl

/-- C5: `decrypt` raises `IncorrectPassword` exactly when the MAC
recomputed over `derivedKey[16:32] ‖ storedCiphertext` differs from the
stored `mac`; and in the mismatch case no decryption happens — the
outcome is the same error under any primitives with the same scrypt and
Keccak, whatever their cipher keystream does. -/
theorem decrypt_authenticate_then_decrypt (prims : CryptoPrims) (ks : Keystore)
    (P : String) :
    (ks.decrypt prims P = .error .incorrectPassword ↔
      Keystore.mac prims (ks.derivedKey prims P) (hexDecode ks.crypto.ciphertext)
        ≠ ks.crypto.mac)
    ∧ (∀ prims2 : CryptoPrims, prims2.scrypt = prims.scrypt →
        prims2.keccak = prims.keccak →
        Keystore.mac prims (ks.derivedKey prims P) (hexDecode ks.crypto.ciphertext)
          ≠ ks.crypto.mac →
        ks.decrypt prims2 P = .error .incorrectPassword) := by
  constructor
  · unfold Keystore.decrypt
    by_cases h : Keystore.mac prims (ks.derivedKey prims P)
        (hexDecode ks.crypto.ciphertext) ≠ ks.crypto.mac
    · simp [h]
    · simp only [if_neg h]
      rcases hE : createDecipheriv ks.crypto.cipher ((ks.derivedKey prims P).take 16)
          (hexDecode ks.crypto.cipherparams.iv) with e | oc
      · simp [hE, h]
      · rcases oc with _ | c <;> simp [hE, h]
  · intro prims2 hs hk hmac
    unfold Keystore.decrypt
    have hdk : ks.derivedKey prims2 P = ks.derivedKey prims P := by
      unfold Keystore.derivedKey
      rw [hs]
    have hm : Keystore.mac prims2 (ks.derivedKey prims2 P)
        (hexDecode ks.crypto.ciphertext)
        = Keystore.mac prims (ks.derivedKey prims P)
            (hexDecode ks.crypto.ciphertext) := by
      unfold Keystore.mac
      rw [hk, hdk]
    simp only [hm]
    rw [if_pos hmac]

/-- A keystore whose stored mac matches nothing, for C5: its `decrypt`
must fail before touching the cipher. -/
def ksC5 : Keystore :=
  { crypto :=
      { cipher := CIPHER
        cipherparams := { iv := hexEncode (List.replicate 16 0) }
        ciphertext := "00"
        kdf := "scrypt"
        kdfparams := { dklen := 32, n := 8192, r := 8, p := 1, salt := "" }
        mac := "nope" }
    id := "id-5"
    version := 3 }

/-- Witness for C5: with a mismatched mac, `decrypt` under primitives
with a different keystream still returns `IncorrectPassword`. -/
theorem decrypt_authenticate_then_decrypt_witness :
    Keystore.decrypt toyPrims2 ksC5 "p" = .error .incorrectPassword :=
  (decrypt_authenticate_then_decrypt toyPrims ksC5 "p").2 toyPrims2 rfl rfl
    (by decide)

/-- C4 (amended): for every keystore whose envelope is well-formed for
the fixed cipher — stored cipher `aes-128-ctr`, `dklen ≥ 16` so the
derived key supplies a full 16-byte cipher key, and a stored iv decoding
to 16 bytes, as holds for every keystore `create` produces —
`checkPassword` returns `true` exactly when `decrypt` does not raise.
(`checkPassword` returns a `Bool` by type: it never raises and never
returns plaintext.  On ill-formed envelopes the equivalence fails, see
the counterexample.) -/
theorem checkPassword_iff_decrypt_ok (prims : CryptoPrims) (ks : Keystore)
    (P : String) (hcipher : ks.crypto.cipher = CIPHER)
    (hdklen : 16 ≤ ks.crypto.kdfparams.dklen)
    (hivlen : (hexDecode ks.crypto.cipherparams.iv).length = 16) :
    ks.checkPassword prims P = true ↔ (ks.decrypt prims P).isOk = true := by
  have hkey : ((ks.derivedKey prims P).take 16).length = 16 := by
    simp only [List.length_take, Keystore.derivedKey, prims.scrypt_len]
    omega
  unfold Keystore.checkPassword Keystore.decrypt createDecipheriv createCipheriv
  by_cases h : Keystore.mac prims (ks.derivedKey prims P)
      (hexDecode ks.crypto.ciphertext) = ks.crypto.mac
  · simp [h, hcipher, hkey, hivlen, Except.isOk, Except.toBool]
  · simp [h, Except.isOk, Except.toBool]

/-- A concrete well-formed keystore for the C4 witness. -/
def ksC4 : Keystore :=
  exceptOk (Keystore.create toyPrims ⟨[3]⟩ "p4" [] (List.replicate 16 0) "id-4")
    dummyKeystore

/-- Witness for C4: on a concretely created keystore, `checkPassword`
true transfers to `decrypt` succeeding. -/
theorem checkPassword_iff_decrypt_ok_witness :
    (Keystore.decrypt toyPrims ksC4 "p4").isOk = true :=
  (checkPassword_iff_decrypt_ok toyPrims ksC4 "p4" rfl (by decide) (by decide)).mp
    (by decide)

/-- An envelope with a bogus stored cipher name but a mac computed to
match: `checkPassword` accepts it, `decrypt` throws. -/
def ksC4bad : Keystore :=
  { crypto :=
      { cipher := "aes-128-cbc"
        cipherparams := { iv := hexEncode (List.replicate 16 0) }
        ciphertext := "00"
        kdf := "scrypt"
        kdfparams := { dklen := 32, n := 8192, r := 8, p := 1, salt := "" }
        mac := Keystore.mac toyPrims (toyPrims.scrypt "p" (hexDecode "") 32 8192 8 1)
          (hexDecode "00") }
    id := "id-4b"
    version := 3 }

/-- Counterexample to C4 as stated: a keystore (reachable through
`fromJson`, which validates nothing) on which `checkPassword` returns
`true` while `decrypt` raises — the cipher-instantiation error, not
`IncorrectPassword`. -/
theorem checkPassword_decrypt_mismatch :
    Keystore.checkPassword toyPrims ksC4bad "p" = true
      ∧ Keystore.decrypt toyPrims ksC4bad "p"
          = .error (.jsError .invalidCipherArgs) := by
  constructor
  · decide
  · decide

/-- C1: round-trip — decrypting the keystore created from a secret with
the same password returns exactly the secret's serialized hex form.  The
byte-range hypotheses state that the secret, salt and iv are genuine
byte buffers; the iv length is what `createCipheriv` demands. -/
theorem create_decrypt_roundtrip (prims : CryptoPrims) (S : ExtendedPrivateKey)
    (P : String) (salt iv : List Nat) (id : String) (ks : Keystore)
    (hbytes : ∀ b ∈ S.bytes, b < 256) (_hne : S.bytes ≠ [])
    (hsalt : ∀ b ∈ salt, b < 256) (hiv : iv.length = 16)
    (hivb : ∀ b ∈ iv, b < 256)
    (hcreate : Keystore.create prims S P salt iv id = .ok ks) :
    ks.decrypt prims P = .ok S.serialize := by
  rw [Keystore.create_eq_ok prims S P salt iv id hiv] at hcreate
  cases hcreate
  have hpt : hexDecode S.serialize = S.bytes := by
    unfold ExtendedPrivateKey.serialize
    exact hexDecode_hexEncode hbytes
  have hsalt2 : hexDecode (hexEncode salt) = salt := hexDecode_hexEncode hsalt
  have hivd : hexDecode (hexEncode iv) = iv := hexDecode_hexEncode hivb
  have hctb : ∀ b ∈ ctrRun prims
      ⟨(prims.scrypt P salt 32 8192 8 1).take 16, iv⟩ (hexDecode S.serialize),
      b < 256 :=
    ctrRun_lt _ _ _ (by rw [hpt]; exact hbytes)
  have hct : hexDecode (hexEncode (ctrRun prims
      ⟨(prims.scrypt P salt 32 8192 8 1).take 16, iv⟩ (hexDecode S.serialize)))
      = ctrRun prims ⟨(prims.scrypt P salt 32 8192 8 1).take 16, iv⟩
          (hexDecode S.serialize) :=
    hexDecode_hexEncode hctb
  have hkey : ((prims.scrypt P salt 32 8192 8 1).take 16).length = 16 := by
    simp [List.length_take, prims.scrypt_len]
  unfold Keystore.decrypt Keystore.derivedKey createDecipheriv createCipheriv
  simp only [hsalt2, hct, hivd, ne_eq, not_true_eq_false, if_false, ite_not]
  simp only [CIPHER, hkey, hiv, and_self, if_pos rfl, if_true]
  rw [ctrRun_ctrRun, hpt]
  rfl

/-- A concrete keystore created with the toy primitives, for C1. -/
def ksC1 : Keystore :=
  exceptOk (Keystore.create toyPrims ⟨[0, 1]⟩ "pw" [7] (List.replicate 16 0) "id-1")
    dummyKeystore

/-- Witness for C1: the concretely created keystore decrypts back to the
secret's hex serialization `"0001"`. -/
theorem create_decrypt_roundtrip_witness :
    Keystore.decrypt toyPrims ksC1 "pw" = .ok (ExtendedPrivateKey.serialize ⟨[0, 1]⟩) :=
  create_decrypt_roundtrip toyPrims ⟨[0, 1]⟩ "pw" [7] (List.replicate 16 0) "id-1"
    ksC1 (by decide) (by decide) (by decide) (by decide) (by decide) rfl

/-- C2: decrypting a freshly created keystore with a different password
raises `IncorrectPassword`.  The hypothesis `hmac` states that the wrong
password's recomputed MAC differs from the stored one — the spec's own
caveat that only a negligible accidental MAC collision could evade
rejection. -/
theorem wrong_password_incorrectPassword (prims : CryptoPrims)
    (S : ExtendedPrivateKey) (P P2 : String) (salt iv : List Nat) (id : String)
    (ks : Keystore) (_hP : P ≠ P2) (hsalt : ∀ b ∈ salt, b < 256)
    (hiv : iv.length = 16)
    (hcreate : Keystore.create prims S P salt iv id = .ok ks)
    (hmac : Keystore.mac prims (prims.scrypt P2 salt 32 8192 8 1)
        (hexDecode ks.crypto.ciphertext) ≠ ks.crypto.mac) :
    ks.decrypt prims P2 = .error .incorrectPassword := by
  rw [Keystore.create_eq_ok prims S P salt iv id hiv] at hcreate
  cases hcreate
  simp only at hmac
  have hsalt2 : hexDecode (hexEncode salt) = salt := hexDecode_hexEncode hsalt
  unfold Keystore.decrypt Keystore.derivedKey
  simp only [hsalt2]
  rw [if_pos hmac]

/-- A concrete keystore created under password `"a"`, for C2. -/
def ksC2 : Keystore :=
  exceptOk (Keystore.create toyPrims ⟨[0]⟩ "a" [] (List.replicate 16 0) "id-2")
    dummyKeystore

/-- Witness for C2: decrypting it with password `"b"` raises
`IncorrectPassword`. -/
theorem wrong_password_incorrectPassword_witness :
    Keystore.decrypt toyPrims ksC2 "b" = .error .incorrectPassword :=
  wrong_password_incorrectPassword toyPrims ⟨[0]⟩ "a" "b" [] (List.replicate 16 0)
    "id-2" ksC2 (by decide) (by decide) (by decide) rfl (by decide)

/-- C3 (amended): `fromJson` raises `InvalidKeystore` whenever the input
is not well-formed JSON — in particular on `"\x7bnot json"` — but an
envelope missing required fields is NOT rejected: `fromJson "\x7b\x7d"`
succeeds, returning a keystore whose `crypto` and `id` are undefined
(the constructor stores the absent properties unvalidated). -/
theorem fromJson_invalid_handling :
    (∀ s : String, jsonParse s = none →
      Keystore.fromJson s = .error .invalidKeystore)
    ∧ Keystore.fromJson "\x7bnot json" = .error .invalidKeystore
    ∧ Keystore.fromJson "\x7b\x7d" = .ok { crypto := none, id := none, version := 3 } := by
  refine ⟨?_, rfl, rfl⟩
  intro s hs
  unfold Keystore.fromJson
  rw [hs]

/-- Counterexample to C3 as stated: `fromJson "\x7b\x7d"` does not raise
`InvalidKeystore`; it returns a keystore with undefined fields. -/
theorem fromJson_empty_object_not_rejected :
    Keystore.fromJson "\x7b\x7d" = .ok { crypto := none, id := none, version := 3 }
      ∧ Keystore.fromJson "\x7b\x7d" ≠ .error .invalidKeystore :=
  ⟨rfl, fun h => Except.noConfusion h⟩

/-- Witness for C3: the general malformed-JSON part applied to a
concrete non-JSON input. -/
theorem fromJson_invalid_handling_witness :
    Keystore.fromJson "not-json" = .error .invalidKeystore :=
  fromJson_invalid_handling.1 "not-json" rfl

end Neuron
